import Mathlib

/-!
Shallow embedding of `main.py` from the Automation-XML repository.

The program encodes an image file as a base64 string, embeds it in a generated
XML document, and re-parses the document to extract long text nodes, decode
them and write them back to disk.  Bytes are modelled as naturals below 256,
XML elements as a rose tree, file I/O outcomes as explicit parameters, and the
console diagnostics that matter to the claims as returned string lists.
-/

namespace AutomationXML

/-- Base64 alphabet used by `base64.b64encode` and `base64.b64decode`
(RFC 4648: `A`-`Z`, `a`-`z`, `0`-`9`, `+`, `/`, with `=` padding). -/
def b64chars : List Char :=
  "ABCDEFGHIJKLMNOPQRSTUVWXYZabcdefghijklmnopqrstuvwxyz0123456789+/".toList

/-- Position of a character in the base64 alphabet, `none` if it is absent. -/
def b64index (c : Char) : Option Nat := b64chars.findIdx? (· == c)

/-- Alphabet character for a sextet value below 64. -/
def b64char (n : Nat) : Char := b64chars.getD n '?'

/-- Model of `base64.b64encode` on a byte sequence: three bytes become four
alphabet characters; a tail of one or two bytes is padded with `=`. -/
def b64encodeBytes : List Nat → List Char
  | b0 :: b1 :: b2 :: rest =>
      b64char (b0 / 4) :: b64char (b0 % 4 * 16 + b1 / 16) ::
        b64char (b1 % 16 * 4 + b2 / 64) :: b64char (b2 % 64) :: b64encodeBytes rest
  | [b0, b1] =>
      [b64char (b0 / 4), b64char (b0 % 4 * 16 + b1 / 16), b64char (b1 % 16 * 4), '=']
  | [b0] => [b64char (b0 / 4), b64char (b0 % 4 * 16), '=', '=']
  | [] => []

/-- Quad-at-a-time decoding loop of `base64.b64decode`: each group of four
characters yields three bytes, with `=` padding allowed only at the very end.
`none` models `binascii.Error` (bad length or misplaced padding). -/
def decodeQuads : List Char → Option (List Nat)
  | [] => some []
  | c0 :: c1 :: c2 :: c3 :: rest =>
    match b64index c0, b64index c1 with
    | some n0, some n1 =>
      if c2 = '=' then
        if c3 = '=' then
          if rest.isEmpty then some [n0 * 4 + n1 / 16] else none
        else none
      else
        match b64index c2 with
        | some n2 =>
          if c3 = '=' then
            if rest.isEmpty then some [n0 * 4 + n1 / 16, n1 % 16 * 16 + n2 / 4] else none
          else
            match b64index c3 with
            | some n3 =>
              (decodeQuads rest).map
                (fun bs => (n0 * 4 + n1 / 16) :: (n1 % 16 * 16 + n2 / 4) :: (n2 % 4 * 64 + n3) :: bs)
            | none => none
        | none => none
    | _, _ => none
  | _ => none

/-- Characters `base64.b64decode` keeps: alphabet characters and padding.
All other characters are discarded before decoding. -/
def b64valid (c : Char) : Bool := (b64index c).isSome || c == '='

/-- Model of `base64.b64decode` on a string: discard foreign characters, then
decode the remaining characters quad by quad.  `none` models `binascii.Error`. -/
def b64decode (s : String) : Option (List Nat) :=
  decodeQuads (s.toList.filter b64valid)

/-- Model of `encode_image_to_base64` (main.py lines 6-34).  The bytes read
from the image file are passed in (`none` models a failed read, on which the
Python function prints a message and returns `None`); a successful read is
encoded with `base64.b64encode` and returned. -/
def encode_image_to_base64 (imageBytes : Option (List Nat)) : Option String :=
  imageBytes.map (fun bs => String.mk (b64encodeBytes bs))

/-- The fixed output directory, `extracted_images` (main.py line 133). -/
def output_folder : String := "extracted_images"

/-- Result of `os.path.join(output_folder, image_filename)` (main.py line 136). -/
def output_file_path (image_filename : String) : String :=
  output_folder ++ "/" ++ image_filename

/-- Model of `save_base64_to_image` (main.py lines 131-150).  First component:
the write effect, i.e. the path and bytes written when the base64 decode
succeeds, `none` when `b64decode` raises (the error is caught and printed).
Second component: the value the Python function returns; it has no `return`
statement, so every path, success or failure, returns `None`. -/
def save_base64_to_image (base64_string : String) (image_filename : String) :
    Option (String × List Nat) × Option String :=
  match b64decode base64_string with
  | some image_data => (some (output_file_path image_filename, image_data), none)
  | none => (none, none)

/-- In-memory XML element as built and parsed by `xml.etree.ElementTree`:
a tag, ordered attributes, optional text content and ordered children. -/
inductive Element where
  | mk (tag : String) (attrib : List (String × String)) (text : Option String)
      (children : List Element)

def Element.tag : Element → String
  | .mk t _ _ _ => t

def Element.attrib : Element → List (String × String)
  | .mk _ a _ _ => a

def Element.text : Element → Option String
  | .mk _ _ tx _ => tx

def Element.children : Element → List Element
  | .mk _ _ _ cs => cs

/-- One call of `save_base64_to_image` made by `convert_xml_images`: the
`image_index` in force, the text passed in, and the resulting write effect. -/
structure SaveEvent where
  index : Nat
  text : String
  stored : Option (String × List Nat)

/-- The per-index output filename, `extracted_image` + index + `.jpg` (main.py line 124). -/
def image_filename (i : Nat) : String := "extracted_image" ++ toString i ++ ".jpg"

/-- Inner loop of `convert_xml_images` (main.py lines 120-125) over the
depth-2 children of one depth-1 child, carrying `image_index`.  Returns the
save calls made, the final index, and whether `len(level_2_child.text)` hit a
`None` text and raised `TypeError` (which aborts the iteration: the exception
propagates to the handler at the bottom of `convert_xml_images`). -/
def scanLevel2 : List Element → Nat → List SaveEvent × Nat × Bool
  | [], idx => ([], idx, false)
  | e :: es, idx =>
    match e.text with
    | none => ([], idx, true)
    | some t =>
      if 100 < t.length then
        let rest := scanLevel2 es (idx + 1)
        (⟨idx, t, (save_base64_to_image t (image_filename idx)).1⟩ :: rest.1, rest.2)
      else
        scanLevel2 es idx

/-- Outer loop of `convert_xml_images` (main.py lines 118-125) over the
depth-1 children of the root.  A `TypeError` raised in the inner loop aborts
the outer loop as well. -/
def scanLevel1 : List Element → Nat → List SaveEvent × Nat × Bool
  | [], idx => ([], idx, false)
  | e :: es, idx =>
    let r2 := scanLevel2 e.children idx
    if r2.2.2 then (r2.1, r2.2.1, true)
    else
      let r1 := scanLevel1 es r2.2.1
      (r2.1 ++ r1.1, r1.2)

/-- Model of `convert_xml_images` (main.py lines 112-128) on an
already-parsed document: scan the children and grandchildren of the root with
`image_index` starting at 0.  Returns the save calls made, and whether the
scan was cut short by an exception (caught by `except Exception as e`, so the
function itself always returns normally). -/
def convert_xml_images (root : Element) : List SaveEvent × Bool :=
  let r := scanLevel1 root.children 0
  (r.1, r.2.2)

/-- One `elements_data` dictionary as consumed by `_add_element`.
`tag` is the result of `element_data.get("tag")` (`none` when the key is
absent or maps to `None`); `attributes` and `children` are the results of the
defaulted gets; `text` keeps the key explicitly: `none` means the key is
absent, `some none` means it maps to `None`, `some (some s)` a string. -/
inductive ElementSpec where
  | mk (tag : Option String) (attributes : List (String × String))
      (text : Option (Option String)) (children : List ElementSpec)

def ElementSpec.tag : ElementSpec → Option String
  | .mk t _ _ _ => t

def ElementSpec.attributes : ElementSpec → List (String × String)
  | .mk _ a _ _ => a

def ElementSpec.text : ElementSpec → Option (Option String)
  | .mk _ _ tx _ => tx

def ElementSpec.children : ElementSpec → List ElementSpec
  | .mk _ _ _ cs => cs

/-- Result of `element_data.get("text")`: collapses an absent key and an
explicit `None` value to `None`. -/
def dictGet (v : Option (Option String)) : Option String := v.getD none

/-- The diagnostic printed by `_add_element` when `tag` is missing
(main.py line 74). -/
def tagWarning : String := "Warning: tag is missing in element data. Skipping."

mutual

/-- Model of `_add_element` (main.py lines 70-91): skip the spec (returning
`none` and printing a warning) when its tag is missing or empty, otherwise
build the element with the attributes of the spec, its text when explicitly
present and not `None`, and its recursively built children.  Also returns
the warnings printed, in order. -/
def _add_element : ElementSpec → Option Element × List String
  | .mk tag attrs txt children =>
    match tag with
    | none => (none, [tagWarning])
    | some t =>
      if t = "" then (none, [tagWarning])
      else
        let cs := addElements children
        (some (.mk t attrs (dictGet txt) cs.1), cs.2)

/-- The `for element_data in elements_data` and `for child_data in children`
loops: attach each spec in order, dropping the skipped ones. -/
def addElements : List ElementSpec → List Element × List String
  | [] => ([], [])
  | s :: ss =>
    let r := _add_element s
    let rs := addElements ss
    (match r.1 with | none => rs.1 | some e => e :: rs.1, r.2 ++ rs.2)

end

/-- The default `elements_data` used when the argument is `None`
(main.py lines 63-64): a single spec with tag `element`. -/
def defaultElementsData : List ElementSpec := [.mk (some "element") [] none []]

/-- The element tree `create_xml_file` builds before writing (main.py lines
66-94), plus the warnings printed while building it. -/
def builtTree (root_name : String) (elements_data : Option (List ElementSpec)) :
    Element × List String :=
  let data := elements_data.getD defaultElementsData
  let r := addElements data
  (.mk root_name [] none r.1, r.2)

/-- Model of `create_xml_file` (main.py lines 37-109).  `writeResult` is the
I/O outcome of `tree.write(filename, ...)`; any exception it raises is caught
by the surrounding handler, which makes the function return `False`, and
`True` is returned exactly when the write completed. -/
def create_xml_file (root_name : String) (elements_data : Option (List ElementSpec))
    (writeResult : Except String Unit) : Bool :=
  let _ := builtTree root_name elements_data
  match writeResult with
  | .ok _ => true
  | .error _ => false

/-- Document exhibiting the missing-text defect: the first depth-2 element has
no text, its later sibling carries a 104-character payload. -/
def c1doc : Element :=
  .mk "root" [] none
    [.mk "images" [] none
      [.mk "marker" [] none [],
        .mk "image_string" [] (some (String.mk (List.replicate 104 'A'))) []]]

theorem b64index_b64char : ∀ n : Nat, n < 64 → b64index (b64char n) = some n := by decide

theorem b64char_ne_pad : ∀ n : Nat, n < 64 → b64char n ≠ '=' := by decide

theorem b64valid_b64char : ∀ n : Nat, n < 64 → b64valid (b64char n) = true := by decide

theorem b64valid_pad : b64valid '=' = true := by decide

theorem encode_all_valid : ∀ B : List Nat, (∀ b ∈ B, b < 256) →
    ∀ c ∈ b64encodeBytes B, b64valid c = true
  | [], _, c, hc => by simp [b64encodeBytes] at hc
  | [b0], h, c, hc => by
      have hb0 : b0 < 256 := h b0 (by simp)
      simp only [b64encodeBytes, List.mem_cons, List.not_mem_nil, or_false] at hc
      rcases hc with rfl | rfl | rfl | rfl
      · exact b64valid_b64char _ (by omega)
      · exact b64valid_b64char _ (by omega)
      · exact b64valid_pad
      · exact b64valid_pad
  | [b0, b1], h, c, hc => by
      have hb0 : b0 < 256 := h b0 (by simp)
      have hb1 : b1 < 256 := h b1 (by simp)
      simp only [b64encodeBytes, List.mem_cons, List.not_mem_nil, or_false] at hc
      rcases hc with rfl | rfl | rfl | rfl
      · exact b64valid_b64char _ (by omega)
      · exact b64valid_b64char _ (by omega)
      · exact b64valid_b64char _ (by omega)
      · exact b64valid_pad
  | b0 :: b1 :: b2 :: rest, h, c, hc => by
      have hb0 : b0 < 256 := h b0 (by simp)
      have hb1 : b1 < 256 := h b1 (by simp)
      have hb2 : b2 < 256 := h b2 (by simp)
      simp only [b64encodeBytes, List.mem_cons] at hc
      rcases hc with rfl | rfl | rfl | rfl | hc
      · exact b64valid_b64char _ (by omega)
      · exact b64valid_b64char _ (by omega)
      · exact b64valid_b64char _ (by omega)
      · exact b64valid_b64char _ (by omega)
      · exact encode_all_valid rest (fun b hb => h b (by simp [hb])) c hc

theorem decode_encode : ∀ B : List Nat, (∀ b ∈ B, b < 256) →
    decodeQuads (b64encodeBytes B) = some B
  | [], _ => rfl
  | [b0], h => by
      have hb0 : b0 < 256 := h b0 (by simp)
      show decodeQuads [b64char (b0 / 4), b64char (b0 % 4 * 16), '=', '='] = some [b0]
      simp only [decodeQuads, b64index_b64char _ (show b0 / 4 < 64 by omega),
        b64index_b64char _ (show b0 % 4 * 16 < 64 by omega), if_pos rfl, List.isEmpty_nil,
        if_true]
      congr 1
      simp only [List.cons.injEq, and_true]
      omega
  | [b0, b1], h => by
      have hb0 : b0 < 256 := h b0 (by simp)
      have hb1 : b1 < 256 := h b1 (by simp)
      show decodeQuads [b64char (b0 / 4), b64char (b0 % 4 * 16 + b1 / 16),
        b64char (b1 % 16 * 4), '='] = some [b0, b1]
      simp only [decodeQuads, b64index_b64char _ (show b0 / 4 < 64 by omega),
        b64index_b64char _ (show b0 % 4 * 16 + b1 / 16 < 64 by omega),
        b64index_b64char _ (show b1 % 16 * 4 < 64 by omega),
        if_neg (b64char_ne_pad _ (show b1 % 16 * 4 < 64 by omega)), if_pos rfl,
        List.isEmpty_nil, if_true]
      congr 1
      simp only [List.cons.injEq, and_true]
      constructor <;> omega
  | b0 :: b1 :: b2 :: rest, h => by
      have hb0 : b0 < 256 := h b0 (by simp)
      have hb1 : b1 < 256 := h b1 (by simp)
      have hb2 : b2 < 256 := h b2 (by simp)
      have hrest := decode_encode rest (fun b hb => h b (by simp [hb]))
      show decodeQuads (b64char (b0 / 4) :: b64char (b0 % 4 * 16 + b1 / 16) ::
          b64char (b1 % 16 * 4 + b2 / 64) :: b64char (b2 % 64) :: b64encodeBytes rest) =
        some (b0 :: b1 :: b2 :: rest)
      simp only [decodeQuads, b64index_b64char _ (show b0 / 4 < 64 by omega),
        b64index_b64char _ (show b0 % 4 * 16 + b1 / 16 < 64 by omega),
        b64index_b64char _ (show b1 % 16 * 4 + b2 / 64 < 64 by omega),
        b64index_b64char _ (show b2 % 64 < 64 by omega),
        if_neg (b64char_ne_pad _ (show b1 % 16 * 4 + b2 / 64 < 64 by omega)),
        if_neg (b64char_ne_pad _ (show b2 % 64 < 64 by omega)), hrest, Option.map_some',
        Option.some.injEq, List.cons.injEq, and_true]
      omega

theorem filter_encode (B : List Nat) (h : ∀ b ∈ B, b < 256) :
    (b64encodeBytes B).filter b64valid = b64encodeBytes B :=
  List.filter_eq_self.mpr (encode_all_valid B h)

/-- C3: decoding the base64 encoding of any byte sequence returns it unchanged:
the codec used by `encode_image_to_base64` and the codec used by
`save_base64_to_image` are exact inverses on encoder output. -/
theorem C3_base64_roundtrip (B : List Nat) (h : ∀ b ∈ B, b < 256) (s : String)
    (henc : encode_image_to_base64 (some B) = some s) :
    b64decode s = some B := by
  have hs : s = String.mk (b64encodeBytes B) := by
    simpa [encode_image_to_base64] using henc.symm
  subst hs
  show decodeQuads ((String.mk (b64encodeBytes B)).toList.filter b64valid) = some B
  rw [show (String.mk (b64encodeBytes B)).toList = b64encodeBytes B from rfl]
  rw [filter_encode B h, decode_encode B h]

/-- Witness for C3 at the concrete byte sequence `[3, 200, 254, 9]`. -/
theorem C3_base64_roundtrip_witness :
    (∀ b ∈ [3, 200, 254, 9], b < 256) ∧
      encode_image_to_base64 (some [3, 200, 254, 9]) = some "A8j+CQ==" ∧
      b64decode "A8j+CQ==" = some [3, 200, 254, 9] :=
  ⟨by decide, rfl, C3_base64_roundtrip [3, 200, 254, 9] (by decide) "A8j+CQ==" rfl⟩

theorem scanLevel2_cons_none (e : Element) (es : List Element) (idx : Nat)
    (he : e.text = none) : scanLevel2 (e :: es) idx = ([], idx, true) := by
  simp [scanLevel2, he]

theorem scanLevel2_cons_pay (e : Element) (es : List Element) (idx : Nat) (t : String)
    (he : e.text = some t) (h : 100 < t.length) :
    scanLevel2 (e :: es) idx =
      (⟨idx, t, (save_base64_to_image t (image_filename idx)).1⟩ ::
          (scanLevel2 es (idx + 1)).1,
        (scanLevel2 es (idx + 1)).2) := by
  simp [scanLevel2, he, h]

theorem scanLevel2_cons_skip (e : Element) (es : List Element) (idx : Nat) (t : String)
    (he : e.text = some t) (h : ¬ 100 < t.length) :
    scanLevel2 (e :: es) idx = scanLevel2 es idx := by
  simp [scanLevel2, he, h]

theorem scanLevel2_indices (es : List Element) : ∀ idx : Nat,
    (scanLevel2 es idx).1.map SaveEvent.index =
      List.range' idx (scanLevel2 es idx).1.length ∧
    (scanLevel2 es idx).2.1 = idx + (scanLevel2 es idx).1.length := by
  induction es with
  | nil => intro idx; simp [scanLevel2]
  | cons e es ih =>
    intro idx
    rcases he : e.text with _ | t
    · rw [scanLevel2_cons_none e es idx he]; simp
    · by_cases h100 : 100 < t.length
      · rw [scanLevel2_cons_pay e es idx t he h100]
        obtain ⟨ih1, ih2⟩ := ih (idx + 1)
        simp only [List.map_cons, List.length_cons, List.range'_succ]
        exact ⟨by rw [ih1], by omega⟩
      · rw [scanLevel2_cons_skip e es idx t he h100]
        exact ih idx

theorem scanLevel1_indices (es : List Element) : ∀ idx : Nat,
    (scanLevel1 es idx).1.map SaveEvent.index =
      List.range' idx (scanLevel1 es idx).1.length ∧
    (scanLevel1 es idx).2.1 = idx + (scanLevel1 es idx).1.length := by
  induction es with
  | nil => intro idx; simp [scanLevel1]
  | cons e es ih =>
    intro idx
    obtain ⟨h21, h22⟩ := scanLevel2_indices e.children idx
    by_cases hab : (scanLevel2 e.children idx).2.2
    · simp only [scanLevel1, hab, if_true]
      exact ⟨h21, h22⟩
    · obtain ⟨ih1, ih2⟩ := ih (scanLevel2 e.children idx).2.1
      simp only [scanLevel1, hab, if_false, Bool.false_eq_true, List.map_append,
        List.length_append]
      constructor
      · rw [h21, ih1, h22]
        rw [List.range'_append_1, Nat.add_comm]
      · rw [ih2, h22]; omega

/-- C5: the `image_index` values passed to `save_base64_to_image` over a whole
scan are `0, 1, 2, ...` in document order, one per classified payload, with no
gaps, however many short-text elements are interspersed. -/
theorem C5_indices_sequential (root : Element) :
    (convert_xml_images root).1.map SaveEvent.index =
      List.range (convert_xml_images root).1.length := by
  show (scanLevel1 root.children 0).1.map SaveEvent.index =
    List.range (scanLevel1 root.children 0).1.length
  rw [(scanLevel1_indices root.children 0).1, List.range_eq_range']

/-- C2: a visited depth-2 element with text `t` is passed to
`save_base64_to_image` exactly when `100 < t.length`; in particular text of
length exactly 100 yields no payload and text of length 101 yields one. -/
theorem C2_threshold :
    (∀ (tg : String) (ats : List (String × String)) (cs : List Element)
        (t : String) (idx : Nat),
      (scanLevel2 [Element.mk tg ats (some t) cs] idx).1.length =
        if 100 < t.length then 1 else 0) ∧
    (scanLevel2 [Element.mk "s" []
        (some (String.mk (List.replicate 100 'A'))) []] 0).1.length = 0 ∧
    (scanLevel2 [Element.mk "s" []
        (some (String.mk (List.replicate 101 'A'))) []] 0).1.length = 1 := by
  refine ⟨fun tg ats cs t idx => ?_, rfl, rfl⟩
  by_cases h : 100 < t.length
  · rw [scanLevel2_cons_pay (Element.mk tg ats (some t) cs) [] idx t rfl h, if_pos h]
    rfl
  · rw [scanLevel2_cons_skip (Element.mk tg ats (some t) cs) [] idx t rfl h, if_neg h]
    rfl

/-- C1: the code violates the claim.  On a document whose first depth-2
element has no text, `len(level_2_child.text)` raises `TypeError`; the
function-level handler catches it, so `convert_xml_images` itself returns,
but the scan is aborted: the qualifying payload in the sibling that follows
is never extracted, although the claim requires scanning to continue. -/
theorem C1_missing_text_aborts_scan :
    100 < (String.mk (List.replicate 104 'A')).length ∧
      convert_xml_images c1doc = ([], true) :=
  ⟨by decide, rfl⟩

/-- C4: a decode failure on one long-text element does not prevent the
well-formed payload in a following sibling at the same depth from being
extracted and stored: the `binascii.Error` is caught inside
`save_base64_to_image`, so the scan continues, assigns the sibling the next
index, decodes it and writes it. -/
theorem C4_sibling_extracted (rt g a b tb tg : String) (bs : List Nat)
    (hblen : 100 < tb.length) (hbdec : b64decode tb = none)
    (hglen : 100 < tg.length) (hgdec : b64decode tg = some bs) :
    convert_xml_images
        (.mk rt [] none [.mk g [] none
          [.mk a [] (some tb) [], .mk b [] (some tg) []]]) =
      ([⟨0, tb, none⟩,
        ⟨1, tg, some (output_file_path (image_filename 1), bs)⟩], false) := by
  have h2 : scanLevel2 [Element.mk a [] (some tb) [], Element.mk b [] (some tg) []] 0 =
      ([⟨0, tb, none⟩,
        ⟨1, tg, some (output_file_path (image_filename 1), bs)⟩], 2, false) := by
    rw [scanLevel2_cons_pay (Element.mk a [] (some tb) []) _ 0 tb rfl hblen]
    rw [scanLevel2_cons_pay (Element.mk b [] (some tg) []) [] 1 tg rfl hglen]
    simp [save_base64_to_image, hbdec, hgdec, scanLevel2]
  simp [convert_xml_images, scanLevel1, Element.children, h2]

/-- Witness for C4: 101 `A` characters fail to decode, 104 `A` characters
decode to 78 zero bytes; the second sibling is still extracted and stored. -/
theorem C4_witness :
    (100 < (String.mk (List.replicate 101 'A')).length ∧
      b64decode (String.mk (List.replicate 101 'A')) = none ∧
      100 < (String.mk (List.replicate 104 'A')).length ∧
      b64decode (String.mk (List.replicate 104 'A')) = some (List.replicate 78 0)) ∧
    convert_xml_images
        (.mk "root" [] none [.mk "group" [] none
          [.mk "bad" [] (some (String.mk (List.replicate 101 'A'))) [],
            .mk "good" [] (some (String.mk (List.replicate 104 'A'))) []]]) =
      ([⟨0, String.mk (List.replicate 101 'A'), none⟩,
        ⟨1, String.mk (List.replicate 104 'A'),
          some (output_file_path (image_filename 1), List.replicate 78 0)⟩], false) :=
  ⟨⟨by decide, rfl, by decide, rfl⟩,
    C4_sibling_extracted "root" "group" "bad" "good" _ _ _ (by decide) rfl (by decide) rfl⟩

theorem _add_element_skip (bad : ElementSpec)
    (h : bad.tag = none ∨ bad.tag = some "") :
    _add_element bad = (none, [tagWarning]) := by
  obtain ⟨tg, ats, tx, cs⟩ := bad
  rcases h with h | h <;> simp only [ElementSpec.tag] at h <;> subst h <;>
    simp [_add_element]

theorem addElements_append (xs ys : List ElementSpec) :
    addElements (xs ++ ys) =
      ((addElements xs).1 ++ (addElements ys).1,
        (addElements xs).2 ++ (addElements ys).2) := by
  induction xs with
  | nil => simp [addElements]
  | cons s ss ih =>
    simp only [List.cons_append, addElements, ih]
    cases h : (_add_element s).1 <;> simp [h, ih, List.append_assoc]

/-- C6: a spec with a missing or empty tag is skipped with a diagnostic and
does not break the build: no element is attached for it, and every sibling
spec, before and after it, is still attached in order. -/
theorem C6_missing_tag_skips_only_subtree (pre post : List ElementSpec)
    (bad : ElementSpec) (h : bad.tag = none ∨ bad.tag = some "") :
    (addElements (pre ++ bad :: post)).1 =
      (addElements pre).1 ++ (addElements post).1 ∧
    tagWarning ∈ (addElements (pre ++ bad :: post)).2 := by
  have hb : addElements (bad :: post) =
      ((addElements post).1, tagWarning :: (addElements post).2) := by
    simp [addElements, _add_element_skip bad h]
  constructor
  · rw [addElements_append pre (bad :: post), hb]
  · rw [addElements_append pre (bad :: post), hb]
    simp

/-- Witness for C6: a missing-tag spec between two tagged siblings. -/
theorem C6_witness :
    ((ElementSpec.mk none [] none []).tag = none ∨
      (ElementSpec.mk none [] none []).tag = some "") ∧
    (addElements [ElementSpec.mk (some "a") [] none [],
        ElementSpec.mk none [] none [],
        ElementSpec.mk (some "b") [] none []]).1 =
      (addElements [ElementSpec.mk (some "a") [] none []]).1 ++
        (addElements [ElementSpec.mk (some "b") [] none []]).1 ∧
    tagWarning ∈ (addElements [ElementSpec.mk (some "a") [] none [],
        ElementSpec.mk none [] none [],
        ElementSpec.mk (some "b") [] none []]).2 :=
  ⟨Or.inl rfl,
    (C6_missing_tag_skips_only_subtree [ElementSpec.mk (some "a") [] none []]
      [ElementSpec.mk (some "b") [] none []] (ElementSpec.mk none [] none [])
      (Or.inl rfl)).1,
    (C6_missing_tag_skips_only_subtree [ElementSpec.mk (some "a") [] none []]
      [ElementSpec.mk (some "b") [] none []] (ElementSpec.mk none [] none [])
      (Or.inl rfl)).2⟩

/-- C7: for a spec with a present non-empty tag, the built element's text is
`some s` exactly when the spec's text field is explicitly present with the
string `s` (present and not `None`); in particular an explicitly present
empty string is preserved, while an absent or `None` text field leaves the
element with no text set. -/
theorem C7_text_iff_present (spec : ElementSpec) (t : String)
    (h1 : spec.tag = some t) (h2 : t ≠ "") :
    ∃ e, (_add_element spec).1 = some e ∧
      ∀ s : String, (e.text = some s ↔ spec.text = some (some s)) := by
  obtain ⟨tg, ats, tx, cs⟩ := spec
  simp only [ElementSpec.tag] at h1
  subst h1
  refine ⟨.mk t ats (dictGet tx) (addElements cs).1, ?_, ?_⟩
  · simp [_add_element, h2]
  · intro s
    simp only [Element.text, ElementSpec.text]
    match tx with
    | none => simp [dictGet]
    | some none => simp [dictGet]
    | some (some v) => simp [dictGet]

/-- Witness for C7 with an explicitly present empty-string text value. -/
theorem C7_witness :
    (ElementSpec.mk (some "p") [] (some (some "")) []).tag = some "p" ∧
    ("p" ≠ "") ∧
    ∃ e, (_add_element (ElementSpec.mk (some "p") [] (some (some "")) [])).1 = some e ∧
      ∀ s : String,
        (e.text = some s ↔
          (ElementSpec.mk (some "p") [] (some (some "")) []).text = some (some s)) :=
  ⟨rfl, by decide, C7_text_iff_present (ElementSpec.mk (some "p") [] (some (some "")) [])
    "p" rfl (by decide)⟩

/-- C8: `create_xml_file` never propagates the write exception: it returns
the boolean `False` when the write raised, and `True` exactly when the file
was written successfully. -/
theorem C8_failure_returns_false (root_name : String)
    (elements_data : Option (List ElementSpec)) (w : Except String Unit) :
    create_xml_file root_name elements_data w = true ↔ w = .ok () := by
  cases w with
  | ok u => cases u; simp [create_xml_file]
  | error e => simp [create_xml_file]

/-- C9 counterexample: `save_base64_to_image` has no return statement.  At
the concrete decodable input "QUJD" the decode succeeds and the file is
written, yet the value returned is `None` and not the output path, as the
claim requires. -/
theorem C9_counterexample :
    (save_base64_to_image "QUJD" "extracted_image0.jpg").1 =
      some (output_file_path "extracted_image0.jpg", [65, 66, 67]) ∧
    (save_base64_to_image "QUJD" "extracted_image0.jpg").2 = none ∧
    (save_base64_to_image "QUJD" "extracted_image0.jpg").2 ≠
      some (output_file_path "extracted_image0.jpg") :=
  ⟨rfl, rfl, by decide⟩

/-- C9 amended: on decodable input the payload writer writes the decoded
bytes to `output_dir/filename`, but returns `None`; on a failed decode
nothing is written and the return value is likewise `None` — success and
failure are signalled by console output only, not by the return value. -/
theorem C9_amended_returns_none (s f : String) :
    (∀ bs, b64decode s = some bs →
      save_base64_to_image s f = (some (output_file_path f, bs), none)) ∧
    (b64decode s = none → save_base64_to_image s f = (none, none)) := by
  constructor
  · intro bs hb; simp [save_base64_to_image, hb]
  · intro hb; simp [save_base64_to_image, hb]

/-- Witness for the amended C9 at the decodable input "QUJD". -/
theorem C9_amended_witness :
    b64decode "QUJD" = some [65, 66, 67] ∧
      save_base64_to_image "QUJD" "x.jpg" =
        (some (output_file_path "x.jpg", [65, 66, 67]), none) :=
  ⟨rfl, (C9_amended_returns_none "QUJD" "x.jpg").1 [65, 66, 67] rfl⟩

/-- C10: calling `create_xml_file` with `elements_data = None` does not fail
and does not produce an empty root: the default spec `{'tag': 'element'}` is
used, so the built root has exactly one child named `element` with no
attributes, no text and no children, no warnings are printed, and with a
successful write the function returns `True`. -/
theorem C10_default_elements (root_name : String) :
    builtTree root_name none =
      (Element.mk root_name [] none [Element.mk "element" [] none []], []) ∧
    create_xml_file root_name none (Except.ok ()) = true :=
  ⟨rfl, rfl⟩

end AutomationXML
